import Mathlib

/-!
Verification of the CRDT aggregate synthesis engine (`crdts_macro`).

The source (`src/derive/src/lib.rs`) is a Rust procedural macro: given a
struct with named fields, it appends a `v_clock : VClock` field and generates

  * an aggregate operation type (`build_op`): a `dot` plus, for every other
    field `f`, an `Option`al field operation `f_op`;
  * two error enums (`build_m_error`, `build_v_error`): the operation-validation
    enum has `NoneOp`, and one variant per field of the field's own CmRDT
    validation error (the appended `v_clock` field contributes the `VClock`
    variant); the merge-validation enum has one variant per field of the
    field's own CvRDT validation error, `v_clock` included;
  * `apply` / `validate_op` / `merge` / `validate_merge` (`impl_apply`,
    `impl_validate`, `impl_merge`, `impl_validate_merge`).

We embed the generated code shallowly, generically over the field schema: a
schema is `F : Fin n → FieldCrdt`, one entry per user-declared field (the
appended `v_clock` tracker is kept separate, exactly as the generators treat
it specially).  The macro iterates fields through a `HashMap`, whose iteration
order is unspecified; where the generated code's behaviour depends on that
order (`impl_validate`, `impl_validate_merge`) the embedding takes the order
as an explicit parameter `ord : List (Fin n)`; an admissible order enumerates
every field exactly once.  `impl_merge` and `impl_apply` mutate distinct
fields in each generated statement, so their results are order-independent
and are embedded pointwise.

The `VClock`/`Dot` leaf lives in the external `crdts` crate, not in this
repository's sources, so it is modelled from the spec (section 4.1); those
definitions carry a `Modelled from the spec:` doc comment.
-/

namespace CrdtsMacro

/-- Actor identifiers; the macro is generic in the actor type, we fix `Nat`. -/
abbrev Actor := Nat

/-- Modelled from the spec: a `Dot` is one causally identified event,
`{actor, counter}` (spec section 3); the `Dot` type itself is defined in the
external `crdts` crate. -/
structure Dot where
  actor : Actor
  counter : Nat
  deriving DecidableEq, Repr

/-- Modelled from the spec: a `VClock` is a "mapping from ActorId to the
highest counter seen for that actor; `get(actor)` returns 0 if absent"
(spec section 3).  We embed it as the total function sending an actor to its
recorded counter, absent actors mapping to 0; the implementation lives in
the external `crdts` crate. -/
abbrev VClock := Actor → Nat

namespace VClock

/-- Modelled from the spec: `get(actor) -> counter` (0 if never seen),
spec section 4.1. -/
def get (c : VClock) (a : Actor) : Nat := c a

/-- Modelled from the spec: `apply(dot)`: "if `dot.counter > get(dot.actor)`,
record it; otherwise no-op", spec section 4.1. -/
def applyDot (c : VClock) (d : Dot) : VClock :=
  if c.get d.actor < d.counter then
    fun a => if a = d.actor then d.counter else c a
  else c

/-- Modelled from the spec: the tracker's operation-validation error; the
only failure is staleness ("fails with `Stale` if
`dot.counter <= get(dot.actor)`", spec section 4.1). -/
inductive Err where
  | Stale : Err
  deriving DecidableEq, Repr

/-- Modelled from the spec: `validate_op(dot)` "fails with `Stale` if
`dot.counter <= get(dot.actor)`; succeeds otherwise", spec section 4.1. -/
def validate_op (c : VClock) (d : Dot) : Except Err Unit :=
  if d.counter ≤ c.get d.actor then Except.error Err.Stale else Except.ok ()

/-- Modelled from the spec: `merge(other)`: "per actor, keep the maximum
counter (pointwise join)", spec section 4.1. -/
def merge (c₁ c₂ : VClock) : VClock := fun a => max (c₁ a) (c₂ a)

/-- Modelled from the spec: `validate_merge(other)` "always succeeds
(vector-clock merges cannot fail)", spec section 4.1; its error type is
therefore empty. -/
def validate_merge (_c₁ _c₂ : VClock) : Except Empty Unit := Except.ok ()

end VClock

/-- One user-declared field of the aggregate: its state type and the four
contract operations the macro's generated code delegates to (`crdts::CmRDT`
with `apply`/`validate_op` and `crdts::CvRDT` with `merge`/`validate_merge`,
each with an associated `Validation` error type). -/
structure FieldCrdt where
  St : Type
  Op : Type
  MErr : Type
  VErr : Type
  apply : St → Op → St
  validate_op : St → Op → Except MErr Unit
  merge : St → St → St
  validate_merge : St → St → Except VErr Unit

variable {n : Nat} {F : Fin n → FieldCrdt}

/-- The aggregate state the macro builds: the user-declared fields plus the
`v_clock : crdts::VClock` field appended by the `crdt` attribute. -/
structure AggState (n : Nat) (F : Fin n → FieldCrdt) where
  fields : (i : Fin n) → (F i).St
  v_clock : VClock

/-- The generated operation struct (`build_op`): the `v_clock` field
contributes a bare `dot : Dot`, every other field `f` contributes
`f_op : Option<Op>`. -/
structure AggOp (n : Nat) (F : Fin n → FieldCrdt) where
  dot : Dot
  field_ops : (i : Fin n) → Option (F i).Op

/-- The tuple-of-`None`s pattern `(None, ..., None)` matched by the generated
`apply` and `validate_op` (`count_none` ranges over every field except
`v_clock`): every field entry of the operation is absent. -/
def AggOp.allNone (op : AggOp n F) : Prop :=
  ∀ i : Fin n, (op.field_ops i).isNone = true

instance (op : AggOp n F) : Decidable op.allNone :=
  Fintype.decidableForallFintype

/-- The generated operation-validation error enum (`build_m_error` plus the
hard-coded `NoneOp` variant): `NoneOp`, the `v_clock` field's variant
`VClock` wrapping the tracker's own validation error, and one variant per
user field wrapping that field's own validation error. -/
inductive AggMErr (n : Nat) (F : Fin n → FieldCrdt) where
  | NoneOp : AggMErr n F
  | VClock : VClock.Err → AggMErr n F
  | Field : (i : Fin n) → (F i).MErr → AggMErr n F

/-- The generated merge-validation error enum (`build_v_error`): one variant
per field wrapping that field's own merge-validation error.  `build_v_error`
iterates over all fields without excluding `v_clock`, so the enum does carry
a `VClock` variant — but its payload is the tracker's merge-validation error
type, which is empty, so that variant is uninhabited. -/
inductive AggVErr (n : Nat) (F : Fin n → FieldCrdt) where
  | VClock : Empty → AggVErr n F
  | Field : (i : Fin n) → (F i).VErr → AggVErr n F

/-- The generated `apply` (`impl_apply`): destructure the op; return
unchanged if `self.v_clock.get(&dot.actor) >= dot.counter`; return unchanged
if every field entry is `None`; otherwise apply each present field op to its
field (the per-field statements touch distinct fields, so the `HashMap`
iteration order does not affect the result) and finally
`self.v_clock.apply(dot)`. -/
def AggState.applyOp (s : AggState n F) (op : AggOp n F) : AggState n F :=
  if op.dot.counter ≤ s.v_clock.get op.dot.actor then s
  else if op.allNone then s
  else
    { fields := fun i =>
        match op.field_ops i with
        | some o => (F i).apply (s.fields i) o
        | none => s.fields i
      v_clock := s.v_clock.applyDot op.dot }

/-- The per-field loop of the generated `validate_op` (`impl_validate`):
for each field in the generation-time iteration order, if its entry is
present, delegate to the field's own `validate_op`, wrapping a failure in
the field's tagged variant via `map_err(..)?` (short-circuit). -/
def validateFields (s : AggState n F) (op : AggOp n F) :
    List (Fin n) → Except (AggMErr n F) Unit
  | [] => Except.ok ()
  | i :: rest =>
    match op.field_ops i with
    | none => validateFields s op rest
    | some o =>
      match (F i).validate_op (s.fields i) o with
      | Except.error e => Except.error (AggMErr.Field i e)
      | Except.ok _ => validateFields s op rest

/-- The generated `validate_op` (`impl_validate`): first
`self.v_clock.validate_op(dot).map_err(VClock)?`, then the all-`None` match
arm returning `Err(NoneOp)`, then the per-field validations in the
generation-time iteration order `ord`, then `Ok(())`. -/
def AggState.validate_op (ord : List (Fin n)) (s : AggState n F)
    (op : AggOp n F) : Except (AggMErr n F) Unit :=
  match s.v_clock.validate_op op.dot with
  | Except.error e => Except.error (AggMErr.VClock e)
  | Except.ok _ =>
    if op.allNone then Except.error AggMErr.NoneOp
    else validateFields s op ord

/-- The generated `merge` (`impl_merge`): `self.f.merge(other.f)` for every
field, `v_clock` included.  Each generated statement mutates a distinct
field, so the `HashMap` iteration order does not affect the result and the
embedding is pointwise. -/
def AggState.merge (s other : AggState n F) : AggState n F :=
  { fields := fun i => (F i).merge (s.fields i) (other.fields i)
    v_clock := s.v_clock.merge other.v_clock }

/-- The per-field loop of the generated `validate_merge`
(`impl_validate_merge`) restricted to the user fields:
`self.f.validate_merge(&other.f).map_err(..)?` in the generation-time
iteration order (short-circuit). -/
def validateMergeFields (s other : AggState n F) :
    List (Fin n) → Except (AggVErr n F) Unit
  | [] => Except.ok ()
  | i :: rest =>
    match (F i).validate_merge (s.fields i) (other.fields i) with
    | Except.error e => Except.error (AggVErr.Field i e)
    | Except.ok _ => validateMergeFields s other rest

/-- The generated `validate_merge` (`impl_validate_merge` followed by the
trailing `Ok(())`): every field's own `validate_merge` in the
generation-time iteration order, `v_clock` included.  The tracker's check
`self.v_clock.validate_merge(&other.v_clock).map_err(VClock)?` cannot fail
(its error type is empty), so its position in the iteration order is
irrelevant; the embedding runs it first. -/
def AggState.validate_merge (ord : List (Fin n)) (s other : AggState n F) :
    Except (AggVErr n F) Unit :=
  match VClock.validate_merge s.v_clock other.v_clock with
  | Except.error e => Except.error (AggVErr.VClock e)
  | Except.ok _ => validateMergeFields s other ord

/-- The effect of a call `self.validate_op(&op)` on the receiver: the Rust
signature borrows `self` immutably and the generated body contains no
assignment, so the call leaves the receiver as it was and produces only the
`Result`. -/
def AggState.validate_op_run (ord : List (Fin n)) (s : AggState n F)
    (op : AggOp n F) : AggState n F × Except (AggMErr n F) Unit :=
  (s, s.validate_op ord op)

/-- The effect of a call `self.validate_merge(&other)` on the receiver: the
Rust signature borrows `self` immutably and the generated body contains no
assignment, so the call leaves the receiver as it was and produces only the
`Result`. -/
def AggState.validate_merge_run (ord : List (Fin n)) (s other : AggState n F) :
    AggState n F × Except (AggVErr n F) Unit :=
  (s, s.validate_merge ord other)

/-- A concrete field CRDT used to instantiate witnesses: a max-register on
`Nat` whose validations always succeed. -/
def NatMaxField : FieldCrdt where
  St := Nat
  Op := Nat
  MErr := Nat
  VErr := Nat
  apply := fun s o => max s o
  validate_op := fun _ _ => Except.ok ()
  merge := fun a b => max a b
  validate_merge := fun _ _ => Except.ok ()

/-- A concrete field CRDT used to exercise the error paths: every operation
and every merge is rejected, the operation's value (respectively 0) echoed
as the error. -/
def EchoRejectField : FieldCrdt where
  St := Nat
  Op := Nat
  MErr := Nat
  VErr := Nat
  apply := fun s _ => s
  validate_op := fun _ o => Except.error o
  merge := fun a _ => a
  validate_merge := fun _ _ => Except.error 0

/-- A one-field schema: a single max-register. -/
def oneField : Fin 1 → FieldCrdt := fun _ => NatMaxField

/-- A two-field schema in which both fields reject every operation. -/
def twoEcho : Fin 2 → FieldCrdt := fun _ => EchoRejectField

/-- The freshly initialized one-field aggregate: default field, empty
tracker. -/
def s0 : AggState 1 oneField :=
  { fields := fun _ => (0 : Nat), v_clock := fun _ => 0 }

/-- A one-field aggregate whose tracker has already recorded counter 1 for
actor 0. -/
def s1 : AggState 1 oneField :=
  { fields := fun _ => (0 : Nat), v_clock := fun a => if a = 0 then 1 else 0 }

/-- An operation with dot `(actor 0, counter 1)` carrying a present entry
for the single field. -/
def opInc : AggOp 1 oneField :=
  { dot := { actor := 0, counter := 1 }, field_ops := fun _ => some (5 : Nat) }

/-- An operation with dot `(actor 0, counter 1)` whose every field entry is
absent. -/
def opEmpty : AggOp 1 oneField :=
  { dot := { actor := 0, counter := 1 }, field_ops := fun _ => none }

/-- The freshly initialized two-field aggregate over `twoEcho`. -/
def sE : AggState 2 twoEcho :=
  { fields := fun _ => (0 : Nat), v_clock := fun _ => 0 }

/-- An operation over `twoEcho` with a fresh dot and both field entries
present; entry `i` carries the value `i`, so the two fields fail with
distinguishable errors. -/
def opE : AggOp 2 twoEcho :=
  { dot := { actor := 0, counter := 1 }, field_ops := fun i => some i.val }

/-! Helper lemmas shared by the claim theorems. -/

/-- Two aggregate states with pointwise equal fields and pointwise equal
trackers are equal. -/
theorem AggState.eq_of_parts {s t : AggState n F}
    (hf : ∀ i, s.fields i = t.fields i) (hv : ∀ a, s.v_clock a = t.v_clock a) :
    s = t := by
  cases s
  cases t
  simp only [AggState.mk.injEq]
  exact ⟨funext hf, funext hv⟩

/-- After recording a dot that is newer than the recorded counter, the
tracker's entry for the dot's actor is the dot's counter. -/
theorem VClock.get_applyDot_self (c : VClock) (d : Dot)
    (h : c.get d.actor < d.counter) : (c.applyDot d).get d.actor = d.counter := by
  rw [VClock.applyDot, if_pos h]
  simp [VClock.get]

/-- The generated `apply` returns the state unchanged when the dot is not
newer than the tracker's recorded counter for its actor (the early
`return`). -/
theorem applyOp_stale (s : AggState n F) (op : AggOp n F)
    (h : op.dot.counter ≤ s.v_clock.get op.dot.actor) : s.applyOp op = s := by
  rw [AggState.applyOp, if_pos h]

/-- The generated `apply` returns the state unchanged when every field entry
of the operation is absent (the `(None, ..., None)` match arm). -/
theorem applyOp_allNone (s : AggState n F) (op : AggOp n F)
    (h : op.allNone) : s.applyOp op = s := by
  rw [AggState.applyOp]
  by_cases h1 : op.dot.counter ≤ s.v_clock.get op.dot.actor
  · rw [if_pos h1]
  · rw [if_neg h1, if_pos h]

/-- The generated `validate_op` fails with the tracker's staleness error,
wrapped in the `VClock` variant, whenever the dot is not newer than the
recorded counter, whatever the field iteration order. -/
theorem validate_op_stale_aux (ord : List (Fin n)) (s : AggState n F)
    (op : AggOp n F) (h : op.dot.counter ≤ s.v_clock.get op.dot.actor) :
    s.validate_op ord op = Except.error (AggMErr.VClock VClock.Err.Stale) := by
  rw [AggState.validate_op, VClock.validate_op, if_pos h]

/-- When the dot is fresh, the generated `validate_op` reduces to the
all-`None` test followed by the per-field loop. -/
theorem validate_op_fresh (ord : List (Fin n)) (s : AggState n F)
    (op : AggOp n F) (h : s.v_clock.get op.dot.actor < op.dot.counter) :
    s.validate_op ord op =
      if op.allNone then Except.error AggMErr.NoneOp
      else validateFields s op ord := by
  rw [AggState.validate_op, VClock.validate_op, if_neg (Nat.not_le.mpr h)]

/-- Characterization of the per-field validation loop: either every present
entry along the order validates and the loop succeeds, or the order splits
around a first present failing field whose error, tagged with that field's
variant, is the loop's result. -/
theorem validateFields_first_failure (s : AggState n F) (op : AggOp n F)
    (ord : List (Fin n)) :
    (validateFields s op ord = Except.ok () ∧
      ∀ i ∈ ord, ∀ o, op.field_ops i = some o →
        (F i).validate_op (s.fields i) o = Except.ok ()) ∨
    (∃ pre i post o e, ord = pre ++ i :: post ∧
      op.field_ops i = some o ∧
      (F i).validate_op (s.fields i) o = Except.error e ∧
      (∀ j ∈ pre, ∀ oj, op.field_ops j = some oj →
        (F j).validate_op (s.fields j) oj = Except.ok ()) ∧
      validateFields s op ord = Except.error (AggMErr.Field i e)) := by
  induction ord with
  | nil => exact Or.inl ⟨rfl, by simp⟩
  | cons i rest ih =>
    rcases hop : op.field_ops i with _ | o
    · rcases ih with ⟨hok, hall⟩ | ⟨pre, j, post, o, e, hsplit, hjo, hje, hpre, hres⟩
      · refine Or.inl ⟨?_, ?_⟩
        · simp only [validateFields, hop]
          exact hok
        · intro j hj oj hjo
          rcases List.mem_cons.mp hj with rfl | hj2
          · rw [hop] at hjo
            exact Option.noConfusion hjo
          · exact hall j hj2 oj hjo
      · refine Or.inr ⟨i :: pre, j, post, o, e, by rw [hsplit, List.cons_append],
          hjo, hje, ?_, ?_⟩
        · intro k hk ok hko
          rcases List.mem_cons.mp hk with rfl | hk2
          · rw [hop] at hko
            exact Option.noConfusion hko
          · exact hpre k hk2 ok hko
        · simp only [validateFields, hop]
          exact hres
    · rcases hv : (F i).validate_op (s.fields i) o with e | u
      · refine Or.inr ⟨[], i, rest, o, e, rfl, hop, hv, by simp, ?_⟩
        simp only [validateFields, hop, hv]
      · rcases ih with ⟨hok, hall⟩ | ⟨pre, j, post, oj, e, hsplit, hjo, hje, hpre, hres⟩
        · refine Or.inl ⟨?_, ?_⟩
          · simp only [validateFields, hop, hv]
            exact hok
          · intro j hj oj hjo
            rcases List.mem_cons.mp hj with rfl | hj2
            · rw [hop] at hjo
              obtain rfl := Option.some.inj hjo
              exact hv
            · exact hall j hj2 oj hjo
        · refine Or.inr ⟨i :: pre, j, post, oj, e, by rw [hsplit, List.cons_append],
            hjo, hje, ?_, ?_⟩
          · intro k hk ok hko
            rcases List.mem_cons.mp hk with rfl | hk2
            · rw [hop] at hko
              obtain rfl := Option.some.inj hko
              exact hv
            · exact hpre k hk2 ok hko
          · simp only [validateFields, hop, hv]
            exact hres

/-! The claim theorems. -/

/-- C1: the generated `merge` is idempotent, commutative and associative on
all aggregate states (hence on all reachable ones), provided every field
type's own `merge` satisfies the same join-semilattice laws; the tracker's
pointwise-max join satisfies them unconditionally. -/
theorem merge_semilattice (n : Nat) (F : Fin n → FieldCrdt)
    (hidem : ∀ i a, (F i).merge a a = a)
    (hcomm : ∀ i a b, (F i).merge a b = (F i).merge b a)
    (hassoc : ∀ i a b c,
      (F i).merge ((F i).merge a b) c = (F i).merge a ((F i).merge b c)) :
    (∀ a : AggState n F, a.merge a = a) ∧
    (∀ a b : AggState n F, a.merge b = b.merge a) ∧
    (∀ a b c : AggState n F, (a.merge b).merge c = a.merge (b.merge c)) :=
  ⟨fun a => AggState.eq_of_parts (fun i => hidem i (a.fields i))
      (fun x => Nat.max_self (a.v_clock x)),
    fun a b => AggState.eq_of_parts (fun i => hcomm i (a.fields i) (b.fields i))
      (fun x => Nat.max_comm (a.v_clock x) (b.v_clock x)),
    fun a b c => AggState.eq_of_parts
      (fun i => hassoc i (a.fields i) (b.fields i) (c.fields i))
      (fun x => Nat.max_assoc (a.v_clock x) (b.v_clock x) (c.v_clock x))⟩

/-- Witness for C1 at the concrete one-field max-register schema. -/
theorem merge_semilattice_witness : AggState.merge s1 s1 = s1 :=
  (merge_semilattice 1 oneField (fun _ a => Nat.max_self a)
    (fun _ a b => Nat.max_comm a b) (fun _ a b c => Nat.max_assoc a b c)).1 s1

/-- C2: the generated `apply` is idempotent: applying the same operation
twice yields the same state as applying it once (after a first effective
application the dot is recorded, so the second application is suppressed). -/
theorem apply_idempotent (s : AggState n F) (op : AggOp n F) :
    (s.applyOp op).applyOp op = s.applyOp op := by
  by_cases h1 : op.dot.counter ≤ s.v_clock.get op.dot.actor
  · rw [applyOp_stale s op h1, applyOp_stale s op h1]
  · by_cases h2 : op.allNone
    · rw [applyOp_allNone s op h2, applyOp_allNone s op h2]
    · have hfresh : s.v_clock.get op.dot.actor < op.dot.counter := Nat.not_le.mp h1
      have hv : (s.applyOp op).v_clock = s.v_clock.applyDot op.dot := by
        rw [AggState.applyOp, if_neg h1, if_neg h2]
      apply applyOp_stale
      rw [hv, VClock.get_applyDot_self s.v_clock op.dot hfresh]

/-- C3: on a fresh dot with at least one present entry, the generated
`apply` delegates every present entry to that field's own `apply`, leaves
every absent field unchanged, and records the dot in the tracker; an
operation whose dot is stale leaves the whole state unchanged. -/
theorem apply_delegates (s : AggState n F) (op : AggOp n F) :
    (s.v_clock.get op.dot.actor < op.dot.counter → ¬op.allNone →
      (∀ i o, op.field_ops i = some o →
        (s.applyOp op).fields i = (F i).apply (s.fields i) o) ∧
      (∀ i, op.field_ops i = none → (s.applyOp op).fields i = s.fields i) ∧
      (s.applyOp op).v_clock = s.v_clock.applyDot op.dot) ∧
    (op.dot.counter ≤ s.v_clock.get op.dot.actor → s.applyOp op = s) := by
  constructor
  · intro h1 h2
    have hne : ¬op.dot.counter ≤ s.v_clock.get op.dot.actor := Nat.not_le.mpr h1
    rw [AggState.applyOp, if_neg hne, if_neg h2]
    refine ⟨fun i o hio => ?_, fun i hi => ?_, rfl⟩
    · simp only [hio]
    · simp only [hi]
  · exact applyOp_stale s op

/-- Witness for C3: a fresh increment on the one-field aggregate delegates
to the field and records the dot; a stale operation leaves the state
unchanged. -/
theorem apply_delegates_witness :
    s0.v_clock.get opInc.dot.actor < opInc.dot.counter ∧
    ¬opInc.allNone ∧
    (s0.applyOp opInc).fields 0 = (oneField 0).apply (s0.fields 0) (5 : Nat) ∧
    (s0.applyOp opInc).v_clock = s0.v_clock.applyDot opInc.dot ∧
    s1.applyOp opEmpty = s1 := by
  have h1 : s0.v_clock.get opInc.dot.actor < opInc.dot.counter := by decide
  have h2 : ¬opInc.allNone := by decide
  refine ⟨h1, h2, ?_, ?_, ?_⟩
  · exact ((apply_delegates s0 opInc).1 h1 h2).1 0 (5 : Nat) rfl
  · exact ((apply_delegates s0 opInc).1 h1 h2).2.2
  · exact (apply_delegates s1 opEmpty).2 (by decide)

/-- C4: the generated `validate_op` returns the tracker-staleness error,
wrapped in the `VClock` variant, whenever the dot counter is at most the
tracker's recorded counter for that actor. -/
theorem validate_op_stale (ord : List (Fin n)) (s : AggState n F)
    (op : AggOp n F) (h : op.dot.counter ≤ s.v_clock.get op.dot.actor) :
    s.validate_op ord op = Except.error (AggMErr.VClock VClock.Err.Stale) :=
  validate_op_stale_aux ord s op h

/-- Witness for C4: a dot with counter 1 against a tracker already at 1 is
rejected as stale. -/
theorem validate_op_stale_witness :
    opEmpty.dot.counter ≤ s1.v_clock.get opEmpty.dot.actor ∧
    AggState.validate_op [(0 : Fin 1)] s1 opEmpty =
      Except.error (AggMErr.VClock VClock.Err.Stale) :=
  ⟨by decide, validate_op_stale [(0 : Fin 1)] s1 opEmpty (by decide)⟩

/-- C5 counterexample: an all-absent operation whose dot is stale is
rejected with the staleness error, not with `NoneOp` (`EmptyOperation`),
refuting the unconditional claim at this concrete input. -/
theorem validate_op_empty_counterexample :
    opEmpty.allNone ∧
    AggState.validate_op [(0 : Fin 1)] s1 opEmpty ≠
      Except.error AggMErr.NoneOp := by
  refine ⟨by decide, ?_⟩
  have h : AggState.validate_op [(0 : Fin 1)] s1 opEmpty =
      Except.error (AggMErr.VClock VClock.Err.Stale) :=
    validate_op_stale_aux _ _ _ (by decide)
  rw [h]
  intro hc
  injection hc with h3
  exact AggMErr.noConfusion h3

/-- C5 (amended): an all-absent operation whose dot is fresh (not stale) is
rejected by `validate_op` with `NoneOp` (`EmptyOperation`). -/
theorem validate_op_empty (ord : List (Fin n)) (s : AggState n F)
    (op : AggOp n F) (h1 : s.v_clock.get op.dot.actor < op.dot.counter)
    (h2 : op.allNone) :
    s.validate_op ord op = Except.error AggMErr.NoneOp := by
  rw [validate_op_fresh ord s op h1, if_pos h2]

/-- Witness for the amended C5: a fresh all-absent operation on the empty
aggregate is rejected with `NoneOp`. -/
theorem validate_op_empty_witness :
    s0.v_clock.get opEmpty.dot.actor < opEmpty.dot.counter ∧
    opEmpty.allNone ∧
    AggState.validate_op [(0 : Fin 1)] s0 opEmpty =
      Except.error AggMErr.NoneOp :=
  ⟨by decide, by decide,
    validate_op_empty [(0 : Fin 1)] s0 opEmpty (by decide) (by decide)⟩

/-- C6: the generated `apply` of an all-absent operation returns without
error and leaves the fields and the tracker completely unchanged (the
`(None, ..., None)` match arm returns before the tracker update). -/
theorem apply_allNone_noop (s : AggState n F) (op : AggOp n F)
    (h : op.allNone) : s.applyOp op = s :=
  applyOp_allNone s op h

/-- Witness for C6: the fresh all-absent operation is a silent no-op on the
empty aggregate. -/
theorem apply_allNone_noop_witness :
    opEmpty.allNone ∧ s0.applyOp opEmpty = s0 :=
  ⟨by decide, apply_allNone_noop s0 opEmpty (by decide)⟩

/-- C7: the tracker contributes nothing to the merge-validation taxonomy:
every value of the generated merge-validation error type is a per-field
error of a non-tracker field (the tracker's variant is uninhabited), and in
particular any error returned by `validate_merge` is such a per-field
error. -/
theorem validate_merge_no_tracker (ord : List (Fin n)) (s other : AggState n F) :
    (∀ e : AggVErr n F, ∃ i err, e = AggVErr.Field i err) ∧
    (∀ e, s.validate_merge ord other = Except.error e →
      ∃ i err, e = AggVErr.Field i err) := by
  have hall : ∀ e : AggVErr n F, ∃ i err, e = AggVErr.Field i err := by
    intro e
    cases e with
    | VClock x => exact x.elim
    | Field i err => exact ⟨i, err, rfl⟩
  exact ⟨hall, fun e _ => hall e⟩

/-- Witness for C7: a failing merge validation over the rejecting two-field
schema produces a per-field, non-tracker error. -/
theorem validate_merge_no_tracker_witness :
    AggState.validate_merge [(0 : Fin 2), 1] sE sE =
      Except.error (AggVErr.Field 0 (0 : Nat)) ∧
    ∃ i err, (AggVErr.Field (0 : Fin 2) (0 : Nat) : AggVErr 2 twoEcho) =
      AggVErr.Field i err :=
  ⟨rfl, (validate_merge_no_tracker [(0 : Fin 2), 1] sE sE).2 _ rfl⟩

/-- C8 (amended): past the staleness and emptiness checks, the generated
`validate_op` delegates to each present field entry's own `validate_op` in
the generation-time iteration order of the field collection — an arbitrary
enumeration of the fields, not guaranteed to be the declared order — and the
first failure along that order is wrapped in that field's tagged error
variant and returned immediately (short-circuit). -/
theorem validate_op_first_failure (ord : List (Fin n)) (s : AggState n F)
    (op : AggOp n F) (h1 : s.v_clock.get op.dot.actor < op.dot.counter)
    (h2 : ¬op.allNone) :
    (s.validate_op ord op = Except.ok () ∧
      ∀ i ∈ ord, ∀ o, op.field_ops i = some o →
        (F i).validate_op (s.fields i) o = Except.ok ()) ∨
    (∃ pre i post o e, ord = pre ++ i :: post ∧
      op.field_ops i = some o ∧
      (F i).validate_op (s.fields i) o = Except.error e ∧
      (∀ j ∈ pre, ∀ oj, op.field_ops j = some oj →
        (F j).validate_op (s.fields j) oj = Except.ok ()) ∧
      s.validate_op ord op = Except.error (AggMErr.Field i e)) := by
  have hv : s.validate_op ord op = validateFields s op ord := by
    rw [validate_op_fresh ord s op h1, if_neg h2]
  rw [hv]
  exact validateFields_first_failure s op ord

/-- C8 counterexample: the generation-time iteration order `[1, 0]` is an
admissible enumeration of the two-field schema, and under it `validate_op`
returns field 1's tagged error, while the declared-order run returns field
0's distinct tagged error — so the returned failure is not the
declared-order first failure. -/
theorem validate_op_order_counterexample :
    AggState.validate_op [(1 : Fin 2), 0] sE opE =
      Except.error (AggMErr.Field 1 (1 : Nat)) ∧
    AggState.validate_op [(0 : Fin 2), 1] sE opE =
      Except.error (AggMErr.Field 0 (0 : Nat)) ∧
    (Except.error (AggMErr.Field (1 : Fin 2) (1 : Nat)) :
        Except (AggMErr 2 twoEcho) Unit) ≠
      Except.error (AggMErr.Field (0 : Fin 2) (0 : Nat)) := by
  refine ⟨rfl, rfl, ?_⟩
  intro hc
  injection hc with h1
  injection h1 with h2 h3
  exact absurd h2 (by decide)

/-- Witness for the amended C8 at the rejecting two-field schema under the
generation order `[1, 0]`: the characterization applies, and indeed the
failing run splits around field 1. -/
theorem validate_op_first_failure_witness :
    sE.v_clock.get opE.dot.actor < opE.dot.counter ∧
    ¬opE.allNone ∧
    ((AggState.validate_op [(1 : Fin 2), 0] sE opE = Except.ok () ∧
      ∀ i ∈ [(1 : Fin 2), 0], ∀ o, opE.field_ops i = some o →
        (twoEcho i).validate_op (sE.fields i) o = Except.ok ()) ∨
    (∃ pre i post o e, [(1 : Fin 2), 0] = pre ++ i :: post ∧
      opE.field_ops i = some o ∧
      (twoEcho i).validate_op (sE.fields i) o = Except.error e ∧
      (∀ j ∈ pre, ∀ oj, opE.field_ops j = some oj →
        (twoEcho j).validate_op (sE.fields j) oj = Except.ok ()) ∧
      AggState.validate_op [(1 : Fin 2), 0] sE opE =
        Except.error (AggMErr.Field i e))) :=
  ⟨by decide, by decide,
    validate_op_first_failure [(1 : Fin 2), 0] sE opE (by decide) (by decide)⟩

/-- C9: the generated validators are pure: a call returns its receiver
unchanged (the generated bodies only read `self`) and produces exactly one
outcome — `Ok` or a single typed error. -/
theorem validate_pure (ord : List (Fin n)) (s other : AggState n F)
    (op : AggOp n F) :
    (s.validate_op_run ord op).1 = s ∧
    (s.validate_merge_run ord other).1 = s ∧
    (s.validate_op ord op = Except.ok () ∨
      ∃ e, s.validate_op ord op = Except.error e) ∧
    (s.validate_merge ord other = Except.ok () ∨
      ∃ e, s.validate_merge ord other = Except.error e) := by
  refine ⟨rfl, rfl, ?_, ?_⟩
  · rcases h : s.validate_op ord op with e | u
    · exact Or.inr ⟨e, rfl⟩
    · exact Or.inl rfl
  · rcases h : s.validate_merge ord other with e | u
    · exact Or.inr ⟨e, rfl⟩
    · exact Or.inl rfl

/-- C10: in the generated `validate_op` the staleness check precedes the
empty-operation check: a stale, all-absent operation is rejected with the
tracker-staleness error, not with `NoneOp` (`EmptyOperation`). -/
theorem validate_op_stale_before_empty (ord : List (Fin n)) (s : AggState n F)
    (op : AggOp n F) (h1 : op.dot.counter ≤ s.v_clock.get op.dot.actor)
    (_h2 : op.allNone) :
    s.validate_op ord op = Except.error (AggMErr.VClock VClock.Err.Stale) ∧
    s.validate_op ord op ≠ Except.error AggMErr.NoneOp := by
  have h := validate_op_stale_aux ord s op h1
  refine ⟨h, ?_⟩
  rw [h]
  intro hc
  injection hc with h3
  exact AggMErr.noConfusion h3

/-- Witness for C10: the stale all-absent operation on the tracker already
at counter 1 yields the staleness error, not `NoneOp`. -/
theorem validate_op_stale_before_empty_witness :
    opEmpty.dot.counter ≤ s1.v_clock.get opEmpty.dot.actor ∧
    opEmpty.allNone ∧
    AggState.validate_op [(0 : Fin 1)] s1 opEmpty ≠
      Except.error AggMErr.NoneOp :=
  ⟨by decide, by decide,
    (validate_op_stale_before_empty [(0 : Fin 1)] s1 opEmpty
      (by decide) (by decide)).2⟩

end CrdtsMacro
